import Mathlib

/-!
Shallow embedding of the RESTORE energy-modelling framework's data-access and
model-initialisation core (`src/model_utils/data_handler.py` and
`src/model_utils/initialisation.py`).

Conventions of the embedding:
* A pandas cell value that the accessors inspect is either a number or NaN;
  we model it as `StoredVal` (`num v` or `nan`).  Numbers are rationals.
* Python dictionaries are modelled as association lists with unique keys in
  insertion order; `alookup` mirrors `dict.__getitem__` returning `Option`.
* A Python function that can raise is modelled as returning
  `Except PyError α`; `raise` is `.error`, normal return is `.ok`.
* A data-type key ("annual", "constant", ...) absent from an entity's
  parameter dictionary is modelled as that table being the empty list: every
  key-membership test and lookup behaves identically.
-/

/-- A Python exception with its argument strings (numbers rendered as text). -/
inductive PyError where
  | keyError (info : List String)
  | valueError (info : List String)
  deriving Repr, DecidableEq

instance {ε α : Type} [DecidableEq ε] [DecidableEq α] : DecidableEq (Except ε α) :=
  fun x y =>
    match x, y with
    | .ok a, .ok b =>
      if h : a = b then .isTrue (by rw [h])
      else .isFalse (fun hh => h (Except.ok.inj hh))
    | .error a, .error b =>
      if h : a = b then .isTrue (by rw [h])
      else .isFalse (fun hh => h (Except.error.inj hh))
    | .ok _, .error _ => .isFalse (fun hh => Except.noConfusion hh)
    | .error _, .ok _ => .isFalse (fun hh => Except.noConfusion hh)

/-- A stored cell value: a number, or NaN (pandas' encoding of an empty cell). -/
inductive StoredVal where
  | nan
  | num (v : ℚ)
  deriving Repr, DecidableEq

/-- `None if np.isnan(value) else value`: surface NaN as explicit absence. -/
def StoredVal.toOpt : StoredVal → Option ℚ
  | .nan => none
  | .num v => some v

/-- Association-list lookup mirroring Python `d[k]`/`k in d` (first match;
dictionaries keep keys unique, so at most one match exists). -/
def alookup {κ α : Type} [DecidableEq κ] (k : κ) : List (κ × α) → Option α
  | [] => none
  | (k', v) :: rest => if k' = k then some v else alookup k rest

/-- Python `d[k] = v`: replace in place when the key exists, else append. -/
def dictInsert {κ α : Type} [DecidableEq κ] (d : List (κ × α)) (k : κ) (v : α) :
    List (κ × α) :=
  if (d.map Prod.fst).contains k then
    d.map (fun kv => if kv.1 = k then (kv.1, v) else kv)
  else d ++ [(k, v)]

/-- The parameter tables of one entity, keyed by data type
(`params[entity_id][data_type]` in `DataHandler.__init__`).  An absent data
type is the empty table. -/
structure EntityParams where
  configuration : List (String × StoredVal) := []
  constant : List (String × StoredVal) := []
  configuration_fxe : List ((String × String) × StoredVal) := []
  constant_fxe : List ((String × String) × StoredVal) := []
  annual : List ((String × ℤ) × StoredVal) := []
  annual_fxe : List ((String × String × ℤ) × StoredVal) := []
  deriving Repr, DecidableEq

/-- A 2-D adjacency table (one of the `FiE`/`FoE` sheets read with
`index_col=0`): row labels, column labels, and the list of (row, column)
positions whose cell holds a value (is not NaN). -/
structure IoDF where
  index : List String
  columns : List String
  present : List (String × String)
  deriving Repr, DecidableEq

/-- Whether the cell at row `p`, column `f` holds a value. -/
def IoDF.cell (df : IoDF) (p f : String) : Bool :=
  df.present.contains (p, f)

/-- `io_df.T`: the transposed table. -/
def IoDF.T (df : IoDF) : IoDF :=
  ⟨df.columns, df.index, df.present.map Prod.swap⟩

/-- `io_df.stack().index`: the (row label, column label) pairs of the non-NaN
cells, in row-major order. -/
def IoDF.stackIndex (df : IoDF) : List (String × String) :=
  df.index.flatMap fun p => (df.columns.filter fun f => df.cell p f).map fun f => (p, f)

/-- A Python dict comprehension `{x: c for x in l}` keeps each key once, in
first-occurrence order (later duplicates rewrite the same constant value). -/
def uniqueList (l : List String) : List String :=
  l.foldl (fun ks k => if ks.contains k then ks else ks ++ [k]) []

/-- `io_dict.setdefault(f, []).append(p)`: append `v` to the list at key `k`,
inserting the key (at the end) when absent. -/
def setdefaultAppend (d : List (String × List String)) (k v : String) :
    List (String × List String) :=
  if (d.map Prod.fst).contains k then
    d.map fun kv => if kv.1 = k then (kv.1, kv.2 ++ [v]) else kv
  else d ++ [(k, [v])]

/-- `get_flow_entity_dict`: dictionary keyed by the table's columns, each key
collecting the row labels of its non-NaN cells (from the transposed table
when `by_entity` — the loop then keys by the original row labels); keys whose
list stayed empty are dropped at the end. -/
def get_flow_entity_dict (io_df : IoDF) (by_entity : Bool) :
    List (String × List String) :=
  let flows := io_df.columns
  let io_dict : List (String × List String) :=
    (uniqueList flows).map fun f => (f, [])
  let index_tuples :=
    if !by_entity then io_df.stackIndex else io_df.T.stackIndex
  let filled := index_tuples.foldl (fun d pf => setdefaultAppend d pf.2 pf.1) io_dict
  filled.filter fun kv => !kv.2.isEmpty

/-- One pass of the `merge_dicts` loop body: `out_dict[k].extend(i)` for every
`(k, i)` in `d` (the key is always present, coming from the key union). -/
def extendAll (out : List (String × List String)) (d : List (String × List String)) :
    List (String × List String) :=
  d.foldl (fun o kv => o.map fun e => if e.1 = kv.1 then (e.1, e.2 ++ kv.2) else e) out

/-- `merge_dicts`: combine two dictionaries, keeping the values of both.  The
Python key set `set(dict1) | set(dict2)` iterates in an unspecified order; we
fix first-occurrence order as the representative (the claims below only
concern per-key content). -/
def merge_dicts (dict1 dict2 : List (String × List String)) :
    List (String × List String) :=
  let keys := uniqueList (dict1.map Prod.fst ++ dict2.map Prod.fst)
  let out_dict : List (String × List String) := keys.map fun k => (k, [])
  extendAll (extendAll out_dict dict1) dict2

/-- The `DataHandler` store after construction: `params` maps entity id to
its tables, `fxe` maps sheet name ("FiE"/"FoE") to its adjacency table. -/
structure DataHandler where
  fxe : List (String × IoDF) := []
  params : List (String × EntityParams) := []
  deriving Repr, DecidableEq

namespace DataHandler

/-- `check_cnf`: evaluate whether a configuration option is set.  A missing
key raises `KeyError("Invalid key for", entity_id, parameter)`; a NaN value
returns `None` (deactivation, not failure). -/
def check_cnf (dh : DataHandler) (entity_id parameter : String) :
    Except PyError (Option ℚ) :=
  match alookup entity_id dh.params with
  | none => .error (.keyError ["Invalid key for", entity_id, parameter])
  | some ep =>
    match alookup parameter ep.configuration with
    | none => .error (.keyError ["Invalid key for", entity_id, parameter])
    | some v => .ok v.toOpt

/-- `get_const`: return a configuration constant; empty values return `None`;
a missing key raises `KeyError`. -/
def get_const (dh : DataHandler) (entity_id parameter : String) :
    Except PyError (Option ℚ) :=
  match alookup entity_id dh.params with
  | none => .error (.keyError ["Invalid key for", entity_id, parameter])
  | some ep =>
    match alookup parameter ep.constant with
    | none => .error (.keyError ["Invalid key for", entity_id, parameter])
    | some v => .ok v.toOpt

/-- `get_const_fxe`: return a flow-specific constant; empty values return
`None`; a missing key raises `KeyError`. -/
def get_const_fxe (dh : DataHandler) (entity_id parameter flow : String) :
    Except PyError (Option ℚ) :=
  match alookup entity_id dh.params with
  | none => .error (.keyError ["Invalid key for", entity_id, parameter, flow])
  | some ep =>
    match alookup (parameter, flow) ep.constant_fxe with
    | none => .error (.keyError ["Invalid key for", entity_id, parameter, flow])
    | some v => .ok v.toOpt

/-- `get_annual`: return a historic value; NaN surfaces as `None`; a missing
key raises a bare `KeyError` carrying the key. -/
def get_annual (dh : DataHandler) (entity_id parameter : String) (year : ℤ) :
    Except PyError (Option ℚ) :=
  match alookup entity_id dh.params with
  | none => .error (.keyError [entity_id])
  | some ep =>
    match alookup (parameter, year) ep.annual with
    | none => .error (.keyError [parameter, toString year])
    | some v => .ok v.toOpt

/-- `get_annual_fxe`: return a flow-specific historic value; NaN surfaces as
`None`; a missing key raises a bare `KeyError` carrying the key. -/
def get_annual_fxe (dh : DataHandler) (entity_id parameter flow : String)
    (year : ℤ) : Except PyError (Option ℚ) :=
  match alookup entity_id dh.params with
  | none => .error (.keyError [entity_id])
  | some ep =>
    match alookup (parameter, flow, year) ep.annual_fxe with
    | none => .error (.keyError [parameter, flow, toString year])
    | some v => .ok v.toOpt

/-- `get`: generic parameter query.  Checks the annual table for
`(parameter, year)`; if the surfaced value is still `None`, checks the
constant table for `parameter`; if neither table had a record and
`trigger_error` is set, raises `KeyError`. -/
def get (dh : DataHandler) (entity_id parameter : String) (year : ℤ)
    (trigger_error : Bool) : Except PyError (Option ℚ) :=
  match alookup entity_id dh.params with
  | none => .error (.keyError [entity_id])
  | some ep =>
    let step1 : Bool × Option ℚ :=
      match alookup (parameter, year) ep.annual with
      | some v => (true, v.toOpt)
      | none => (false, none)
    let step2 : Bool × Option ℚ :=
      if step1.2 = none then
        match alookup parameter ep.constant with
        | some v => (true, v.toOpt)
        | none => step1
      else step1
    if !step2.1 && trigger_error then
      .error (.keyError ["Parameter", parameter, "not found for", entity_id])
    else .ok step2.2

/-- `get_fxe`: generic flow-specific parameter query.  Checks the
annual-per-flow table for `(parameter, flow, year)`; if the surfaced value is
still `None`, checks the constant-per-flow table for `(parameter, flow)`; if
neither table had a record and `trigger_error` is set, raises `KeyError`. -/
def get_fxe (dh : DataHandler) (entity_id parameter flow : String) (year : ℤ)
    (trigger_error : Bool) : Except PyError (Option ℚ) :=
  match alookup entity_id dh.params with
  | none => .error (.keyError [entity_id])
  | some ep =>
    let step1 : Bool × Option ℚ :=
      match alookup (parameter, flow, year) ep.annual_fxe with
      | some v => (true, v.toOpt)
      | none => (false, none)
    let step2 : Bool × Option ℚ :=
      if step1.2 = none then
        match alookup (parameter, flow) ep.constant_fxe with
        | some v => (true, v.toOpt)
        | none => step1
      else step1
    if !step2.1 && trigger_error then
      .error (.keyError ["Parameter", parameter, "not found for", entity_id,
        "and", flow])
    else .ok step2.2

/-- `build_cnf_set`: the list comprehension
`[i for i in entity_set if self.check_cnf(i, parameter) == 1]` — an exception
from `check_cnf` propagates. -/
def build_cnf_set (dh : DataHandler) (entity_set : List String)
    (parameter : String) : Except PyError (List String) :=
  match entity_set with
  | [] => .ok []
  | i :: rest =>
    match dh.check_cnf i parameter with
    | .error err => .error err
    | .ok v =>
      match dh.build_cnf_set rest parameter with
      | .error err => .error err
      | .ok tail => .ok (if v = some 1 then i :: tail else tail)

end DataHandler

/-! ### DataHandler construction (`DataHandler.__init__`) -/

/-- One record row of a parameter sheet: the `Type`, `Flow`, `Year` and
`Parameter` index columns, plus the data cells keyed by entity column.  An
entity column with no entry in `cells` models an empty (NaN) cell. -/
structure Row where
  dtype : String
  flow : String
  year : ℤ
  parameter : String
  cells : List (String × StoredVal)
  deriving Repr, DecidableEq

/-- One workbook sheet, carrying both parsed views of the raw grid:
`adj` is the `index_col=0` adjacency view (used when the sheet name is
`FiE`/`FoE`), `entities` the data columns left after dropping the
`CNF_INDEX` columns, and `rows` the record view (used otherwise). -/
structure Sheet where
  name : String
  adj : IoDF
  entities : List String
  rows : List Row
  deriving Repr, DecidableEq

/-- The value of the cell of row `r` in entity column `e`. -/
def Row.cellOf (r : Row) (e : String) : StoredVal :=
  (alookup e r.cells).getD .nan

/-- `entity_df.set_index(...).to_dict()[entity_id]`: build a dictionary from
keyed entries; a later duplicate key overrides an earlier one. -/
def buildTable {κ : Type} [DecidableEq κ] (entries : List (κ × StoredVal)) :
    List (κ × StoredVal) :=
  entries.foldl (fun d kv => dictInsert d kv.1 kv.2) []

/-- One `data_type` iteration of the `__init__` inner loop for entity `e`:
select the rows of that type, index them by the kind-specific key and store
the dictionary under the data type; an unrecognised type raises
`ValueError("Invalid Data Type", data_type, "in", group, entity_id)`. -/
def applyDtype (group e : String) (rows : List Row) (ep : EntityParams)
    (dt : String) : Except PyError EntityParams :=
  let sel := rows.filter fun r => r.dtype = dt
  if dt = "constant" ∨ dt = "configuration" then
    let table := buildTable (sel.map fun r => (r.parameter, r.cellOf e))
    .ok (if dt = "constant" then { ep with constant := table }
         else { ep with configuration := table })
  else if dt = "constant_fxe" ∨ dt = "configuration_fxe" then
    let table := buildTable (sel.map fun r => ((r.parameter, r.flow), r.cellOf e))
    .ok (if dt = "constant_fxe" then { ep with constant_fxe := table }
         else { ep with configuration_fxe := table })
  else if dt = "annual" then
    let table := buildTable (sel.map fun r => ((r.parameter, r.year), r.cellOf e))
    .ok { ep with annual := table }
  else if dt = "annual_fxe" then
    let table := buildTable (sel.map fun r => ((r.parameter, r.flow, r.year), r.cellOf e))
    .ok { ep with annual_fxe := table }
  else .error (.valueError ["Invalid Data Type", dt, "in", group, e])

/-- The inner `for data_type in id_cnf["Type"].unique()` loop. -/
def buildTypeTables (group e : String) (rows : List Row) (ep : EntityParams) :
    List String → Except PyError EntityParams
  | [] => .ok ep
  | dt :: rest =>
    match applyDtype group e rows ep dt with
    | .error err => .error err
    | .ok ep' => buildTypeTables group e rows ep' rest

/-- Build `params[entity_id]` for one entity column of a sheet. -/
def buildEntityParams (group : String) (rows : List Row) (e : String) :
    Except PyError EntityParams :=
  buildTypeTables group e rows {} (uniqueList (rows.map fun r => r.dtype))

/-- The entity dictionaries accumulated by `__init__`. -/
abbrev Params := List (String × EntityParams)

/-- The `for entity_id in sheet_df.columns.drop(CNF_INDEX)` loop of one
parameter sheet: an id already present in `params` raises
`ValueError("Found duplicate id", entity_id, "in sheet", group)`. -/
def processEntities (group : String) (rows : List Row) (p : Params) :
    List String → Except PyError Params
  | [] => .ok p
  | e :: rest =>
    if (p.map Prod.fst).contains e then
      .error (.valueError ["Found duplicate id", e, "in sheet", group])
    else
      match buildEntityParams group rows e with
      | .error err => .error err
      | .ok ep => processEntities group rows (p ++ [(e, ep)]) rest

/-- The `for group in excel_file.sheet_names` loop: `FiE`/`FoE` sheets go to
the `fxe` dictionary, every other sheet is a parameter sheet. -/
def processSheets (st : List (String × IoDF) × Params) :
    List Sheet → Except PyError (List (String × IoDF) × Params)
  | [] => .ok st
  | s :: rest =>
    if s.name = "FiE" ∨ s.name = "FoE" then
      processSheets (dictInsert st.1 s.name s.adj, st.2) rest
    else
      match processEntities s.name s.rows st.2 s.entities with
      | .error err => .error err
      | .ok p => processSheets (st.1, p) rest

/-- `DataHandler.__init__` over a workbook (its list of sheets, in order):
either the finished store or the exception that aborted construction. -/
def initDataHandler (sheets : List Sheet) : Except PyError DataHandler :=
  match processSheets ([], []) sheets with
  | .error err => .error err
  | .ok st => .ok { fxe := st.1, params := st.2 }

/-! ### Model initialisation (`initialisation.py`) -/

/-- The model's global index sets as initialised by `_init_sets`. -/
structure ModelSets where
  F : List String
  Y : List ℤ
  D : List ℕ
  H : List ℕ
  FiE : List (String × String)
  FoE : List (String × String)

/-- An assignment of values to the `fin`/`fout` flow variables, indexed by
(flow, entity, year, day, hour). -/
structure VarAssign where
  fin : String → String → ℤ → ℕ → ℕ → ℚ
  fout : String → String → ℤ → ℕ → ℕ → ℚ

/-- `_c_io_balance`: the constraint generated for `(flow_id, y, d, h)` —
the sum of `fout[f, e, y, d, h]` over `(f, e) ∈ FoE` with `f == flow_id`
equals the sum of `fin[f, e, y, d, h]` over `(f, e) ∈ FiE` with
`f == flow_id`. -/
def c_io_balance (m : ModelSets) (v : VarAssign) (flow_id : String)
    (y : ℤ) (d h : ℕ) : Prop :=
  ((m.FoE.filter fun fe => fe.1 = flow_id).map fun fe => v.fout fe.1 fe.2 y d h).sum
    = ((m.FiE.filter fun fe => fe.1 = flow_id).map fun fe => v.fin fe.1 fe.2 y d h).sum

/-- `model.c_io_balance = pyo.Constraint(model.F, model.Y, model.D, model.H,
rule=_c_io_balance)`: an assignment satisfies the generated constraint block
when the rule holds at every index of `F × Y × D × H`. -/
def io_balance_constraints (m : ModelSets) (v : VarAssign) : Prop :=
  ∀ f ∈ m.F, ∀ y ∈ m.Y, ∀ d ∈ m.D, ∀ h ∈ m.H, c_io_balance m v f y d h

/-- Python `s.startswith(pre)`, computed on the character lists. -/
def startsWithStr (s pre : String) : Bool :=
  pre.data.isPrefixOf s.data

/-- The capacity-enabled subset built by `_init_sets`: demands are the
entities whose identifier starts with `dem_`, processes are `entities -
demands`, and `Caps` is `build_cnf_set(processes, "enable_capacity")`. -/
def init_capacity_set (dh : DataHandler) (entities : List String) :
    Except PyError (List String) :=
  let demands := entities.filter fun e => startsWithStr e "dem_"
  let processes := entities.filter fun e => !(demands.contains e)
  dh.build_cnf_set processes "enable_capacity"

/-! ### Concrete fixtures used by the witnesses and counterexamples -/

/-- A small entity parameter store exercising every table kind. -/
def epX : EntityParams :=
  { configuration := [("enable_capacity", .num 1), ("unset_opt", .nan), ("two", .num 2)]
    constant := [("p", .num 5), ("a", .num 9), ("cn", .nan), ("conly", .num 9)]
    constant_fxe := [(("cf", "elec"), .num 4), (("cfn", "elec"), .nan)]
    annual := [(("p", 2020), .nan), (("a", 2020), .num 3), (("an", 2020), .nan)]
    annual_fxe := [(("cf", "elec", 2020), .nan), (("af", "elec", 2020), .num 6)] }

/-- An entity whose capacity flag is left unset (NaN). -/
def epY : EntityParams := { configuration := [("enable_capacity", .nan)] }

/-- A store with one fully populated process, one demand, one flagless process. -/
def dhX : DataHandler := { params := [("proc1", epX), ("dem_h", epY), ("proc2", epY)] }

/-! ### Characterisation of the generic accessors -/

/-- `get` characterised by the two table lookups: a numeric annual record wins;
a NaN annual record (or no annual record) falls through to the constant
record; with no record at all, the strictness flag decides between `KeyError`
and `None`. -/
theorem get_eq (dh : DataHandler) (e p : String) (y : ℤ) (te : Bool)
    (ep : EntityParams) (he : alookup e dh.params = some ep) :
    dh.get e p y te =
      match alookup (p, y) ep.annual, alookup p ep.constant with
      | some (.num v), _ => .ok (some v)
      | some .nan, some c => .ok c.toOpt
      | none, some c => .ok c.toOpt
      | some .nan, none => .ok none
      | none, none =>
        if te then .error (.keyError ["Parameter", p, "not found for", e])
        else .ok none := by
  simp only [DataHandler.get, he]
  rcases h1 : alookup (p, y) ep.annual with _ | v
  · rcases h2 : alookup p ep.constant with _ | c
    · cases te <;> simp
    · simp
  · cases v
    · rcases h2 : alookup p ep.constant with _ | c
      · cases te <;> simp [StoredVal.toOpt]
      · simp [StoredVal.toOpt]
    · simp [StoredVal.toOpt]

/-- `get_fxe` characterised by the two flow-specific table lookups, in the
same shape as `get_eq`. -/
theorem get_fxe_eq (dh : DataHandler) (e p f : String) (y : ℤ) (te : Bool)
    (ep : EntityParams) (he : alookup e dh.params = some ep) :
    dh.get_fxe e p f y te =
      match alookup (p, f, y) ep.annual_fxe, alookup (p, f) ep.constant_fxe with
      | some (.num v), _ => .ok (some v)
      | some .nan, some c => .ok c.toOpt
      | none, some c => .ok c.toOpt
      | some .nan, none => .ok none
      | none, none =>
        if te then .error (.keyError ["Parameter", p, "not found for", e, "and", f])
        else .ok none := by
  simp only [DataHandler.get_fxe, he]
  rcases h1 : alookup (p, f, y) ep.annual_fxe with _ | v
  · rcases h2 : alookup (p, f) ep.constant_fxe with _ | c
    · cases te <;> simp
    · simp
  · cases v
    · rcases h2 : alookup (p, f) ep.constant_fxe with _ | c
      · cases te <;> simp [StoredVal.toOpt]
      · simp [StoredVal.toOpt]
    · simp [StoredVal.toOpt]

/-! ### Claims about the accessors -/

/-- **C1, counterexample.**  The store `dhX` holds both an annual record
`("p", 2020)` and a constant record `"p"` for entity `proc1`, yet the
non-strict `get` returns the constant record's value `5`: the annual record
stores NaN, which surfaces as `none`, so `get` does not return the annual
record's value. -/
theorem claim_C1_counterexample :
    alookup "proc1" dhX.params = some epX ∧
    alookup ("p", (2020 : ℤ)) epX.annual = some .nan ∧
    alookup "p" epX.constant = some (.num 5) ∧
    dhX.get "proc1" "p" 2020 false = .ok (some 5) ∧
    (Except.ok StoredVal.nan.toOpt : Except PyError (Option ℚ)) ≠ .ok (some 5) := by
  decide

/-- **C1, amended.**  For every entity, parameter name, and year such that
the store holds both an annual record keyed (parameter, year) *with a numeric
stored value* and a constant record keyed (parameter) for that entity, `get`
returns the annual value, not the constant one (a NaN annual record instead
falls through to the constant record, see C2). -/
theorem claim_C1 (dh : DataHandler) (e p : String) (y : ℤ) (te : Bool)
    (ep : EntityParams) (av : ℚ) (cv : StoredVal)
    (he : alookup e dh.params = some ep)
    (ha : alookup (p, y) ep.annual = some (.num av))
    (hc : alookup p ep.constant = some cv) :
    dh.get e p y te = .ok (some av) := by
  rw [get_eq dh e p y te ep he, ha, hc]

/-- **C1, witness.**  In `dhX`, entity `proc1` has annual `("a", 2020) = 3`
and constant `"a" = 9`; `get` returns the annual `3`. -/
theorem claim_C1_witness : dhX.get "proc1" "a" 2020 false = .ok (some 3) :=
  claim_C1 dhX "proc1" "a" 2020 false epX 3 (.num 9)
    (by decide) (by decide) (by decide)

/-- **C2.**  A NaN annual record together with a numeric constant record for
the same (entity, parameter) makes the non-strict `get` return the constant
value rather than the absence sentinel, and likewise `get_fxe` with a NaN
annual-per-flow record and a numeric constant-per-flow record. -/
theorem claim_C2 (dh : DataHandler) (e p p' f : String) (y : ℤ) (te : Bool)
    (ep : EntityParams) (cv cvf : ℚ)
    (he : alookup e dh.params = some ep)
    (ha : alookup (p, y) ep.annual = some .nan)
    (hc : alookup p ep.constant = some (.num cv))
    (haf : alookup (p', f, y) ep.annual_fxe = some .nan)
    (hcf : alookup (p', f) ep.constant_fxe = some (.num cvf)) :
    dh.get e p y te = .ok (some cv) ∧ dh.get_fxe e p' f y te = .ok (some cvf) := by
  rw [get_eq dh e p y te ep he, ha, hc,
    get_fxe_eq dh e p' f y te ep he, haf, hcf]
  exact ⟨rfl, rfl⟩

/-- **C2, witness.**  In `dhX`, annual `("p", 2020)` is NaN and constant
`"p"` is `5`, so `get` returns `5`; annual-per-flow `("cf", "elec", 2020)` is
NaN and constant-per-flow `("cf", "elec")` is `4`, so `get_fxe` returns
`4`. -/
theorem claim_C2_witness :
    dhX.get "proc1" "p" 2020 false = .ok (some 5) ∧
    dhX.get_fxe "proc1" "cf" "elec" 2020 false = .ok (some 4) :=
  claim_C2 dhX "proc1" "p" "cf" "elec" 2020 false epX 5 4
    (by decide) (by decide) (by decide) (by decide) (by decide)

/-- **C3.**  For an entity present in the store: strict `get` raises exactly
when the (parameter, year) key is in neither the annual nor the constant
table, and the same missing combination under non-strict access returns the
absence sentinel; likewise for `get_fxe` over the per-flow tables. -/
theorem claim_C3 (dh : DataHandler) (e p f : String) (y : ℤ) (ep : EntityParams)
    (he : alookup e dh.params = some ep) :
    ((∃ err, dh.get e p y true = .error err) ↔
      alookup (p, y) ep.annual = none ∧ alookup p ep.constant = none) ∧
    (alookup (p, y) ep.annual = none ∧ alookup p ep.constant = none →
      dh.get e p y false = .ok none) ∧
    ((∃ err, dh.get_fxe e p f y true = .error err) ↔
      alookup (p, f, y) ep.annual_fxe = none ∧ alookup (p, f) ep.constant_fxe = none) ∧
    (alookup (p, f, y) ep.annual_fxe = none ∧ alookup (p, f) ep.constant_fxe = none →
      dh.get_fxe e p f y false = .ok none) := by
  refine ⟨?_, ?_, ?_, ?_⟩
  · rw [get_eq dh e p y true ep he]
    rcases h1 : alookup (p, y) ep.annual with _ | v
    · rcases h2 : alookup p ep.constant with _ | c
      · simp
      · simp
    · cases v <;> rcases h2 : alookup p ep.constant with _ | c <;> simp
  · rintro ⟨h1, h2⟩
    rw [get_eq dh e p y false ep he, h1, h2]
    rfl
  · rw [get_fxe_eq dh e p f y true ep he]
    rcases h1 : alookup (p, f, y) ep.annual_fxe with _ | v
    · rcases h2 : alookup (p, f) ep.constant_fxe with _ | c
      · simp
      · simp
    · cases v <;> rcases h2 : alookup (p, f) ep.constant_fxe with _ | c <;> simp
  · rintro ⟨h1, h2⟩
    rw [get_fxe_eq dh e p f y false ep he, h1, h2]
    rfl

/-- **C3, witness.**  Parameter `"zz"` is in no table of `proc1`: strict
`get` raises, non-strict `get` and `get_fxe` return absence. -/
theorem claim_C3_witness :
    (∃ err, dhX.get "proc1" "zz" 2020 true = .error err) ∧
    dhX.get "proc1" "zz" 2020 false = .ok none ∧
    dhX.get_fxe "proc1" "zz" "fl" 2020 false = .ok none := by
  have h := claim_C3 dhX "proc1" "zz" "fl" 2020 epX (by decide)
  exact ⟨h.1.mpr ⟨by decide, by decide⟩, h.2.1 ⟨by decide, by decide⟩,
    h.2.2.2 ⟨by decide, by decide⟩⟩

/-- **C4.**  A record stored as NaN is surfaced as the explicit absence value
— never the number zero, and without raising — by `get_const`, `get_annual`,
and by the non-strict `get` whenever the NaN record is what the query
resolves to (i.e. no numeric record of the other kind overrides or backs it;
a numeric constant behind a NaN annual record is the C2 fallthrough). -/
theorem claim_C4 (dh : DataHandler) (e p : String) (y : ℤ) (ep : EntityParams)
    (he : alookup e dh.params = some ep) :
    (alookup p ep.constant = some .nan → dh.get_const e p = .ok none) ∧
    (alookup (p, y) ep.annual = some .nan → dh.get_annual e p y = .ok none) ∧
    ((alookup (p, y) ep.annual = some .nan ∨ alookup p ep.constant = some .nan) →
      (alookup (p, y) ep.annual = some .nan ∨ alookup (p, y) ep.annual = none) →
      (alookup p ep.constant = some .nan ∨ alookup p ep.constant = none) →
      dh.get e p y false = .ok none) := by
  refine ⟨?_, ?_, ?_⟩
  · intro h
    simp [DataHandler.get_const, he, h, StoredVal.toOpt]
  · intro h
    simp [DataHandler.get_annual, he, h, StoredVal.toOpt]
  · intro _ h1 h2
    rcases h1 with h1 | h1 <;> rcases h2 with h2 | h2 <;>
      rw [get_eq dh e p y false ep he, h1, h2] <;> rfl

/-- **C4, witness.**  `proc1` stores constant `"cn"` and annual
`("an", 2020)` as NaN; all three accessors surface absence. -/
theorem claim_C4_witness :
    dhX.get_const "proc1" "cn" = .ok none ∧
    dhX.get_annual "proc1" "an" 2020 = .ok none ∧
    dhX.get "proc1" "an" 2020 false = .ok none :=
  ⟨(claim_C4 dhX "proc1" "cn" 2020 epX (by decide)).1 (by decide),
   (claim_C4 dhX "proc1" "an" 2020 epX (by decide)).2.1 (by decide),
   (claim_C4 dhX "proc1" "an" 2020 epX (by decide)).2.2
     (Or.inl (by decide)) (Or.inl (by decide)) (Or.inr (by decide))⟩

/-- **C10.**  `check_cnf` returns the explicit absence value when the
configuration option is unset (stored as NaN) and otherwise returns its
numeric flag value; an unset option does not raise. -/
theorem claim_C10 (dh : DataHandler) (e p : String) (ep : EntityParams)
    (he : alookup e dh.params = some ep) :
    (alookup p ep.configuration = some .nan → dh.check_cnf e p = .ok none) ∧
    (∀ v : ℚ, alookup p ep.configuration = some (.num v) →
      dh.check_cnf e p = .ok (some v)) := by
  constructor
  · intro h
    simp [DataHandler.check_cnf, he, h, StoredVal.toOpt]
  · intro v h
    simp [DataHandler.check_cnf, he, h, StoredVal.toOpt]

/-- **C10, witness.**  `proc1` leaves `"unset_opt"` unset (NaN) and sets
`"two"` to `2`. -/
theorem claim_C10_witness :
    dhX.check_cnf "proc1" "unset_opt" = .ok none ∧
    dhX.check_cnf "proc1" "two" = .ok (some 2) :=
  ⟨(claim_C10 dhX "proc1" "unset_opt" epX (by decide)).1 (by decide),
   (claim_C10 dhX "proc1" "two" epX (by decide)).2 2 (by decide)⟩

/-! ### Claim about the flow-conservation constraint -/

/-- Summing a function over the pairs whose flow matches equals summing the
matching-indicator form over all pairs. -/
theorem sum_filter_eq_sum_ite (l : List (String × String)) (f : String)
    (g : String × String → ℚ) :
    ((l.filter fun fe => fe.1 = f).map g).sum
      = (l.map fun fe => if fe.1 = f then g fe else 0).sum := by
  induction l with
  | nil => rfl
  | cons a t ih => by_cases h : a.1 = f <;> simp [h, ih]

/-- **C5.**  The constraint block generated by `init_model` holds exactly
when, for every flow in `F` and every `(year, day, hour)` index of
`Y × D × H`, the sum of the outflow variables over the `FoE` pairs whose
flow equals that flow equals the sum of the inflow variables over the `FiE`
pairs whose flow equals that flow, at that exact time index — an equality of
the two sums. -/
theorem claim_C5 (m : ModelSets) (v : VarAssign) :
    io_balance_constraints m v ↔
      ∀ f ∈ m.F, ∀ y ∈ m.Y, ∀ d ∈ m.D, ∀ h ∈ m.H,
        (m.FoE.map fun fe => if fe.1 = f then v.fout fe.1 fe.2 y d h else 0).sum
          = (m.FiE.map fun fe => if fe.1 = f then v.fin fe.1 fe.2 y d h else 0).sum := by
  simp only [io_balance_constraints, c_io_balance, sum_filter_eq_sum_ite]

/-- A one-flow, one-period model connecting a producer and a demand. -/
def mX : ModelSets :=
  ⟨["elec"], [2020], [0], [0], [("elec", "dem_h")], [("elec", "proc1")]⟩

/-- A constant assignment sending 10 units through every flow variable. -/
def vX : VarAssign := ⟨fun _ _ _ _ _ => 10, fun _ _ _ _ _ => 10⟩

/-- **C5, witness.**  The balanced constant assignment satisfies the
generated constraint block on the concrete one-flow model. -/
theorem claim_C5_witness : io_balance_constraints mX vX :=
  (claim_C5 mX vX).mpr (by simp [mX, vX])

/-! ### Claims about the connectivity derivation -/

/-- Extending the list stored under key `k` leaves the entries of every
other key untouched. -/
theorem mem_map_key_ne (d : List (String × List String)) (k v f : String)
    (vs : List String) (hkf : k ≠ f) :
    ((f, vs) ∈ d.map fun kv => if kv.1 = k then (kv.1, kv.2 ++ [v]) else kv)
      ↔ (f, vs) ∈ d := by
  induction d with
  | nil => simp
  | cons a t ih =>
    by_cases hk : a.1 = k
    · simp [List.mem_cons, ih, Prod.ext_iff, hk, Ne.symm hkf]
    · simp [List.mem_cons, if_neg hk, ih]

/-- `setdefaultAppend` at key `k` preserves the entries of any key `f ≠ k`. -/
theorem mem_setdefaultAppend_of_ne (d : List (String × List String))
    (k v f : String) (hkf : k ≠ f) (vs : List String) :
    ((f, vs) ∈ setdefaultAppend d k v ↔ (f, vs) ∈ d) := by
  unfold setdefaultAppend
  cases hc : (d.map Prod.fst).contains k
  · simp [Prod.ext_iff, Ne.symm hkf]
  · simpa using mem_map_key_ne d k v f vs hkf

/-- Folding `setdefaultAppend` over tuples none of which target key `f`
preserves the entries of key `f`. -/
theorem foldl_setdefault_preserve (f : String) :
    ∀ (tuples : List (String × String)) (d : List (String × List String)),
      (∀ t ∈ tuples, t.2 ≠ f) →
      ∀ vs, ((f, vs) ∈ tuples.foldl (fun d pf => setdefaultAppend d pf.2 pf.1) d
        ↔ (f, vs) ∈ d)
  | [], _, _, _ => Iff.rfl
  | t :: rest, d, h, vs => by
    simp only [List.foldl_cons]
    rw [foldl_setdefault_preserve f rest (setdefaultAppend d t.2 t.1)
      (fun u hu => h u (List.mem_cons_of_mem _ hu)) vs]
    exact mem_setdefaultAppend_of_ne d t.2 t.1 f (h t (List.mem_cons_self _ _)) vs

/-- **C6.**  Every key of the mapping returned by `get_flow_entity_dict`
carries a non-empty entity list, and a flow column with no connected entity
(no non-NaN cell in its column) does not appear in the result at all. -/
theorem claim_C6 (df : IoDF) (by_entity : Bool) :
    (∀ kv ∈ get_flow_entity_dict df by_entity, kv.2 ≠ []) ∧
    (∀ f, (∀ p ∈ df.index, df.cell p f = false) →
      ∀ vs, (f, vs) ∉ get_flow_entity_dict df false) := by
  constructor
  · intro kv hkv
    have h := (List.mem_filter.mp hkv).2
    simpa using h
  · intro f hf vs hmem
    simp only [get_flow_entity_dict, Bool.not_false, if_true] at hmem
    obtain ⟨hfill, hne⟩ := List.mem_filter.mp hmem
    have htuples : ∀ t ∈ df.stackIndex, t.2 ≠ f := by
      intro t ht hteq
      simp only [IoDF.stackIndex, List.mem_flatMap, List.mem_map,
        List.mem_filter] at ht
      obtain ⟨p, hp, c, ⟨hc, hcell⟩, hpc⟩ := ht
      rw [← hpc] at hteq
      have hcf : c = f := hteq
      rw [hcf] at hcell
      rw [hf p hp] at hcell
      exact Bool.noConfusion hcell
    have hio := (foldl_setdefault_preserve f df.stackIndex _ htuples vs).mp hfill
    obtain ⟨c, hc, hceq⟩ := List.mem_map.mp hio
    have : vs = [] := (Prod.mk.injEq _ _ _ _ ▸ hceq).2.symm
    rw [this] at hne
    simp at hne

/-- An adjacency table with two connected flows and one empty column. -/
def dfX : IoDF :=
  ⟨["e1", "e2"], ["elec", "gas", "empty"],
    [("e1", "elec"), ("e2", "elec"), ("e2", "gas")]⟩

/-- **C6, witness.**  On the concrete table, every result key has a
non-empty list and the empty column is absent from the result. -/
theorem claim_C6_witness :
    (∀ kv ∈ get_flow_entity_dict dfX false, kv.2 ≠ []) ∧
    ∀ vs, ("empty", vs) ∉ get_flow_entity_dict dfX false :=
  ⟨(claim_C6 dfX false).1, (claim_C6 dfX false).2 "empty" (by decide)⟩

/-! ### Claim about merge_dicts -/

/-- `alookup` misses exactly the keys outside the key list. -/
theorem alookup_eq_none_iff {α : Type} (k : String) (d : List (String × α)) :
    alookup k d = none ↔ k ∉ d.map Prod.fst := by
  induction d with
  | nil => simp [alookup]
  | cons a t ih =>
    by_cases h : a.1 = k <;> simp [alookup, h, ih, Ne.symm]

/-- Membership in the insert-if-absent fold underlying `uniqueList`. -/
theorem mem_foldl_insertAbsent (k : String) :
    ∀ (l acc : List String),
      (k ∈ l.foldl (fun ks x => if ks.contains x then ks else ks ++ [x]) acc
        ↔ k ∈ acc ∨ k ∈ l)
  | [], acc => by simp
  | x :: t, acc => by
    simp only [List.foldl_cons]
    rw [mem_foldl_insertAbsent k t]
    cases hc : acc.contains x
    · simp only [Bool.false_eq_true, if_false, List.mem_append,
        List.mem_singleton, List.mem_cons]
      tauto
    · have hx : x ∈ acc := by simpa using hc
      simp only [if_true, List.mem_cons]
      constructor
      · rintro (h | h)
        · exact Or.inl h
        · exact Or.inr (Or.inr h)
      · rintro (h | h | h)
        · exact Or.inl h
        · exact Or.inl (h ▸ hx)
        · exact Or.inr h

/-- `uniqueList` keeps exactly the members of the input list. -/
theorem mem_uniqueList (k : String) (l : List String) :
    k ∈ uniqueList l ↔ k ∈ l := by
  unfold uniqueList
  rw [mem_foldl_insertAbsent]
  simp

/-- Looking up in the all-empty initial dictionary. -/
theorem alookup_init_keys (f : String) :
    ∀ keys : List String,
      alookup f (keys.map fun k => (k, ([] : List String)))
        = if f ∈ keys then some [] else none
  | [] => by simp [alookup]
  | k :: t => by
    by_cases h : k = f
    · simp [alookup, h, List.mem_cons]
    · simp only [List.map_cons, alookup, if_neg h, alookup_init_keys f t,
        List.mem_cons]
      by_cases hf : f ∈ t <;> simp [hf, Ne.symm h]

/-- `alookup` unfolded one step on an arbitrary head pair. -/
theorem alookup_cons {α : Type} (k : String) (p : String × α)
    (rest : List (String × α)) :
    alookup k (p :: rest) = if p.1 = k then some p.2 else alookup k rest := by
  obtain ⟨k', v⟩ := p
  rfl

/-- One `out_dict[k].extend(vs)` pass seen through `alookup`. -/
theorem alookup_extendOne (o : List (String × List String)) (k : String)
    (vs : List String) (f : String) :
    alookup f (o.map fun e => if e.1 = k then (e.1, e.2 ++ vs) else e)
      = if k = f then (alookup f o).map (fun l => l ++ vs) else alookup f o := by
  induction o with
  | nil => by_cases h : k = f <;> simp [alookup, h]
  | cons a t ih =>
    simp only [List.map_cons, alookup_cons]
    by_cases hak : a.1 = k
    · by_cases haf : a.1 = f
      · have hkf : k = f := hak.symm.trans haf
        simp [hak, haf, hkf]
      · have hkf : ¬ k = f := fun h => haf (hak.trans h)
        simp [hak, haf, hkf, ih]
    · by_cases haf : a.1 = f
      · have hkf : ¬ k = f := fun h => hak (haf.trans h.symm)
        have hfk : ¬ f = k := fun h => hkf h.symm
        simp [hak, haf, hkf, hfk]
      · simp [hak, haf, ih]

/-- The `for k, i in d.items(): out_dict[k].extend(i)` loop seen through
`alookup`, for a dictionary `d` with unique keys. -/
theorem alookup_extendAll (f : String) :
    ∀ (d : List (String × List String)), (d.map Prod.fst).Nodup →
      ∀ o : List (String × List String),
        alookup f (extendAll o d)
          = match alookup f d with
            | some vs => (alookup f o).map (fun l => l ++ vs)
            | none => alookup f o
  | [], _, o => rfl
  | a :: t, hnd, o => by
    simp only [List.map_cons, List.nodup_cons] at hnd
    have step : extendAll o (a :: t)
        = extendAll (o.map fun e => if e.1 = a.1 then (e.1, e.2 ++ a.2) else e) t := rfl
    rw [step, alookup_extendAll f t hnd.2, alookup_extendOne]
    by_cases haf : a.1 = f
    · have ht : alookup f t = none := by
        rw [alookup_eq_none_iff]
        exact fun hmem => hnd.1 (haf ▸ hmem)
      rw [ht]
      simp [alookup, haf]
    · simp [alookup, haf]

/-- `alookup` on `merge_dicts` of two unique-key dictionaries: per-key
concatenation of the two sides' lists. -/
theorem alookup_merge_dicts (d1 d2 : List (String × List String))
    (h1 : (d1.map Prod.fst).Nodup) (h2 : (d2.map Prod.fst).Nodup) (k : String) :
    alookup k (merge_dicts d1 d2)
      = match alookup k d1, alookup k d2 with
        | some a, some b => some (a ++ b)
        | some a, none => some a
        | none, some b => some b
        | none, none => none := by
  unfold merge_dicts
  rw [alookup_extendAll k d2 h2, alookup_extendAll k d1 h1, alookup_init_keys]
  rcases hd1 : alookup k d1 with _ | a <;> rcases hd2 : alookup k d2 with _ | b
  · have : k ∉ uniqueList (d1.map Prod.fst ++ d2.map Prod.fst) := by
      rw [mem_uniqueList, List.mem_append]
      rintro (h | h)
      · exact (alookup_eq_none_iff k d1).mp hd1 h
      · exact (alookup_eq_none_iff k d2).mp hd2 h
    simp [this]
  · have : k ∈ uniqueList (d1.map Prod.fst ++ d2.map Prod.fst) := by
      rw [mem_uniqueList, List.mem_append]
      right
      by_contra h
      rw [← alookup_eq_none_iff k d2] at h
      rw [h] at hd2
      exact Option.noConfusion hd2
    simp [this]
  · have : k ∈ uniqueList (d1.map Prod.fst ++ d2.map Prod.fst) := by
      rw [mem_uniqueList, List.mem_append]
      left
      by_contra h
      rw [← alookup_eq_none_iff k d1] at h
      rw [h] at hd1
      exact Option.noConfusion hd1
    simp [this]
  · have : k ∈ uniqueList (d1.map Prod.fst ++ d2.map Prod.fst) := by
      rw [mem_uniqueList, List.mem_append]
      left
      by_contra h
      rw [← alookup_eq_none_iff k d1] at h
      rw [h] at hd1
      exact Option.noConfusion hd1
    simp [this]

/-- **C7.**  For unique-key inputs: over disjoint key sets, `merge_dicts` is
extensionally the union of the two mappings; on a shared key, the merged
entity list has length equal to the sum of the two inputs' list lengths and
preserves every entry of both sides. -/
theorem claim_C7 (d1 d2 : List (String × List String))
    (h1 : (d1.map Prod.fst).Nodup) (h2 : (d2.map Prod.fst).Nodup) :
    ((∀ k ∈ d1.map Prod.fst, k ∉ d2.map Prod.fst) →
      ∀ k, alookup k (merge_dicts d1 d2)
        = match alookup k d1 with
          | some a => some a
          | none => alookup k d2) ∧
    (∀ k a b, alookup k d1 = some a → alookup k d2 = some b →
      ∃ m, alookup k (merge_dicts d1 d2) = some m ∧
        m.length = a.length + b.length ∧ (∀ x ∈ a, x ∈ m) ∧ (∀ x ∈ b, x ∈ m)) := by
  constructor
  · intro hdisj k
    rw [alookup_merge_dicts d1 d2 h1 h2 k]
    rcases hd1 : alookup k d1 with _ | a
    · rcases hd2 : alookup k d2 with _ | b <;> rfl
    · have hk1 : k ∈ d1.map Prod.fst := by
        by_contra h
        rw [← alookup_eq_none_iff k d1] at h
        rw [h] at hd1
        exact Option.noConfusion hd1
      have : alookup k d2 = none := (alookup_eq_none_iff k d2).mpr (hdisj k hk1)
      rw [this]
  · intro k a b hd1 hd2
    rw [alookup_merge_dicts d1 d2 h1 h2 k, hd1, hd2]
    exact ⟨a ++ b, rfl, by simp,
      fun x hx => List.mem_append.mpr (Or.inl hx),
      fun x hx => List.mem_append.mpr (Or.inr hx)⟩

/-- **C7, witness.**  A disjoint merge keeps each side's entry; a shared-key
merge concatenates the two lists. -/
theorem claim_C7_witness :
    alookup "a" (merge_dicts [("a", ["x"])] [("c", ["w"])]) = some ["x"] ∧
    ∃ m, alookup "b" (merge_dicts [("b", ["y"])] [("b", ["z"])]) = some m ∧
      m.length = 1 + 1 ∧ (∀ x ∈ ["y"], x ∈ m) ∧ (∀ x ∈ ["z"], x ∈ m) := by
  constructor
  · have h := (claim_C7 [("a", ["x"])] [("c", ["w"])] (by decide) (by decide)).1
      (by decide) "a"
    rw [h]
    decide
  · exact (claim_C7 [("b", ["y"])] [("b", ["z"])] (by decide) (by decide)).2
      "b" ["y"] ["z"] (by decide) (by decide)

/-! ### Claim about the capacity-enabled set -/

/-- Whether an `Except` value is a normal return. -/
def exceptOk {ε α : Type} : Except ε α → Bool
  | .ok _ => true
  | .error _ => false

/-- `build_cnf_set` succeeds when every `check_cnf` call succeeds, and
returns exactly the members whose flag evaluates to `1`. -/
theorem build_cnf_set_ok (dh : DataHandler) (param : String) :
    ∀ es : List String,
      (∀ e ∈ es, exceptOk (dh.check_cnf e param) = true) →
      ∃ caps, dh.build_cnf_set es param = .ok caps ∧
        ∀ e, (e ∈ caps ↔ e ∈ es ∧ dh.check_cnf e param = .ok (some 1))
  | [], _ => ⟨[], rfl, by simp⟩
  | i :: rest, h => by
    obtain ⟨r, hr⟩ : ∃ r, dh.check_cnf i param = .ok r := by
      rcases hx : dh.check_cnf i param with err | r
      · have hok := h i (List.mem_cons_self _ _)
        rw [hx] at hok
        exact Bool.noConfusion hok
      · exact ⟨r, rfl⟩
    obtain ⟨caps', hc', hm'⟩ :=
      build_cnf_set_ok dh param rest (fun e he => h e (List.mem_cons_of_mem _ he))
    refine ⟨if r = some 1 then i :: caps' else caps', ?_, ?_⟩
    · simp only [DataHandler.build_cnf_set, hr, hc']
    · intro e
      by_cases hr1 : r = some 1
    
      · rw [hr1] at hr
        rw [if_pos hr1, List.mem_cons, hm' e]
        constructor
        · rintro (h1 | h1)
          · refine ⟨List.mem_cons.mpr (Or.inl h1), ?_⟩
            rw [h1]
            exact hr
          · exact ⟨List.mem_cons.mpr (Or.inr h1.1), h1.2⟩
        · rintro ⟨hmem, hok⟩
          rcases List.mem_cons.mp hmem with h1 | h1
          · exact Or.inl h1
          · exact Or.inr ⟨h1, hok⟩
      · rw [if_neg hr1, hm' e]
        constructor
        · rintro ⟨hmem, hok⟩
          exact ⟨List.mem_cons.mpr (Or.inr hmem), hok⟩
        · rintro ⟨hmem, hok⟩
          rcases List.mem_cons.mp hmem with h1 | h1
          · rw [h1, hr] at hok
            exact absurd (Except.ok.inj hok) hr1
          · exact ⟨h1, hok⟩

/-- **C9.**  Provided every process's `enable_capacity` configuration row
exists (so `check_cnf` does not raise), the capacity-enabled subset built by
`_init_sets` contains exactly the entities without the `dem_` prefix whose
`enable_capacity` flag evaluates to `1` (the code's enabling test is
`check_cnf(...) == 1`) — every such process is included and no other entity
is. -/
theorem claim_C9 (dh : DataHandler) (entities : List String)
    (h : ∀ e ∈ entities, startsWithStr e "dem_" = false →
      exceptOk (dh.check_cnf e "enable_capacity") = true) :
    ∃ caps, init_capacity_set dh entities = .ok caps ∧
      ∀ e, e ∈ caps ↔
        e ∈ entities ∧ startsWithStr e "dem_" = false ∧
          dh.check_cnf e "enable_capacity" = .ok (some 1) := by
  unfold init_capacity_set
  have hproc : ∀ e,
      (e ∈ entities.filter fun e =>
        !((entities.filter fun x => startsWithStr x "dem_").contains e))
        ↔ e ∈ entities ∧ startsWithStr e "dem_" = false := by
    intro e
    rw [List.mem_filter]
    constructor
    · rintro ⟨he, hb⟩
      refine ⟨he, ?_⟩
      cases hd : startsWithStr e "dem_"
      · rfl
      · exfalso
        have hmem : e ∈ entities.filter fun x => startsWithStr x "dem_" :=
          List.mem_filter.mpr ⟨he, hd⟩
        have hcon : (entities.filter fun x => startsWithStr x "dem_").contains e
            = true := List.elem_iff.mpr hmem
        rw [hcon] at hb
        exact Bool.noConfusion hb
    · rintro ⟨he, hd⟩
      refine ⟨he, ?_⟩
      cases hc : (entities.filter fun x => startsWithStr x "dem_").contains e
      · rfl
      · have hmem := List.elem_iff.mp hc
        have := (List.mem_filter.mp hmem).2
        rw [hd] at this
        exact Bool.noConfusion this
  obtain ⟨caps, hcaps, hmem⟩ := build_cnf_set_ok dh "enable_capacity" _
    (fun e he => h e ((hproc e).mp he).1 ((hproc e).mp he).2)
  refine ⟨caps, hcaps, fun e => ?_⟩
  rw [hmem e, hproc e]
  tauto

/-- **C9, witness.**  On `dhX` with entities `proc1`, `dem_h`, `proc2`:
`proc1` (flag = 1) is capacity-enabled; `dem_h` (demand) and `proc2`
(flag unset) are not. -/
theorem claim_C9_witness :
    ∃ caps, init_capacity_set dhX ["proc1", "dem_h", "proc2"] = .ok caps ∧
      ∀ e, e ∈ caps ↔
        e ∈ ["proc1", "dem_h", "proc2"] ∧ startsWithStr e "dem_" = false ∧
          dhX.check_cnf e "enable_capacity" = .ok (some 1) :=
  claim_C9 dhX ["proc1", "dem_h", "proc2"] (by decide)

/-! ### Claim about duplicate entity ids at construction -/

/-- The data types recognised by `DataHandler.__init__`. -/
def validDtype (dt : String) : Prop :=
  dt = "constant" ∨ dt = "configuration" ∨ dt = "constant_fxe" ∨
    dt = "configuration_fxe" ∨ dt = "annual" ∨ dt = "annual_fxe"

instance (dt : String) : Decidable (validDtype dt) := by
  unfold validDtype
  infer_instance

/-- Every record row of every parameter sheet carries a recognised type. -/
def validSheets (sheets : List Sheet) : Prop :=
  ∀ s ∈ sheets, ¬(s.name = "FiE" ∨ s.name = "FoE") →
    ∀ r ∈ s.rows, validDtype r.dtype

instance (sheets : List Sheet) : Decidable (validSheets sheets) := by
  unfold validSheets
  infer_instance

/-- The entity data columns of the parameter sheets, in processing order. -/
def entStream (sheets : List Sheet) : List String :=
  sheets.flatMap fun s =>
    if s.name = "FiE" ∨ s.name = "FoE" then [] else s.entities

/-- A recognised data type never aborts `applyDtype`. -/
theorem applyDtype_ok (g e : String) (rows : List Row) (ep : EntityParams)
    (dt : String) (hv : validDtype dt) :
    ∃ ep', applyDtype g e rows ep dt = .ok ep' := by
  rcases hv with h | h | h | h | h | h <;> subst h <;> exact ⟨_, rfl⟩

/-- `buildTypeTables` succeeds on any list of recognised data types. -/
theorem buildTypeTables_ok (g e : String) (rows : List Row) :
    ∀ (dts : List String) (ep : EntityParams),
      (∀ dt ∈ dts, validDtype dt) →
      ∃ ep', buildTypeTables g e rows ep dts = .ok ep'
  | [], ep, _ => ⟨ep, rfl⟩
  | dt :: rest, ep, h => by
    obtain ⟨ep1, h1⟩ := applyDtype_ok g e rows ep dt (h dt (List.mem_cons_self _ _))
    obtain ⟨ep2, h2⟩ := buildTypeTables_ok g e rows rest ep1
      (fun d hd => h d (List.mem_cons_of_mem _ hd))
    exact ⟨ep2, by simp only [buildTypeTables, h1, h2]⟩

/-- `buildEntityParams` succeeds when every row's data type is recognised. -/
theorem buildEntityParams_ok (g : String) (rows : List Row) (e : String)
    (hrows : ∀ r ∈ rows, validDtype r.dtype) :
    ∃ ep, buildEntityParams g rows e = .ok ep := by
  apply buildTypeTables_ok
  intro dt hdt
  have := (mem_uniqueList dt _).mp hdt
  obtain ⟨r, hr, hdt'⟩ := List.mem_map.mp this
  exact hdt' ▸ hrows r hr

/-- The entity-column loop of one parameter sheet: when the already-known
keys plus this sheet's columns repeat `e` (and repeat no other id), the loop
raises the duplicate-id error naming `e`; when `e` is not repeated either,
the loop succeeds and appends exactly this sheet's columns to the key
list. -/
theorem processEntities_spec (g : String) (rows : List Row)
    (hrows : ∀ r ∈ rows, validDtype r.dtype) (e : String) :
    ∀ (ents : List String) (p : Params),
      (p.map Prod.fst).Nodup →
      (∀ d, d ≠ e → (p.map Prod.fst ++ ents).count d ≤ 1) →
      (2 ≤ (p.map Prod.fst ++ ents).count e →
        processEntities g rows p ents
          = .error (.valueError ["Found duplicate id", e, "in sheet", g])) ∧
      ((p.map Prod.fst ++ ents).count e ≤ 1 →
        ∃ p', processEntities g rows p ents = .ok p' ∧
          p'.map Prod.fst = p.map Prod.fst ++ ents)
  | [], p, hnd, _ => by
    constructor
    · intro h2
      have h1 := List.nodup_iff_count_le_one.mp hnd e
      rw [List.append_nil] at h2
      omega
    · intro _
      exact ⟨p, rfl, by simp⟩
  | a :: ents, p, hnd, hcnt => by
    have hunfold : processEntities g rows p (a :: ents)
        = if (p.map Prod.fst).contains a then
            .error (.valueError ["Found duplicate id", a, "in sheet", g])
          else
            match buildEntityParams g rows a with
            | .error err => .error err
            | .ok ep => processEntities g rows (p ++ [(a, ep)]) ents := rfl
    cases hc : (p.map Prod.fst).contains a
    · have hnotm : a ∉ p.map Prod.fst := by simpa using hc
      obtain ⟨epa, hepa⟩ := buildEntityParams_ok g rows a hrows
      have hstep : processEntities g rows p (a :: ents)
          = processEntities g rows (p ++ [(a, epa)]) ents := by
        rw [hunfold, hc, if_neg Bool.false_ne_true, hepa]
      have hkeys : (p ++ [(a, epa)]).map Prod.fst = p.map Prod.fst ++ [a] := by
        simp
      have hnd' : ((p ++ [(a, epa)]).map Prod.fst).Nodup := by
        rw [hkeys]
        refine List.Nodup.append hnd (List.nodup_singleton a) ?_
        intro x hx hx'
        rw [List.mem_singleton] at hx'
        exact hnotm (hx' ▸ hx)
      have hlist : (p ++ [(a, epa)]).map Prod.fst ++ ents
          = p.map Prod.fst ++ a :: ents := by
        rw [hkeys, List.append_assoc]
        rfl
      obtain ⟨ih1, ih2⟩ := processEntities_spec g rows hrows e ents
        (p ++ [(a, epa)]) hnd' (fun d hd => by rw [hlist]; exact hcnt d hd)
      constructor
      · intro h2
        rw [hstep]
        exact ih1 (by rw [hlist]; exact h2)
      · intro hle
        obtain ⟨p', hp', hk'⟩ := ih2 (by rw [hlist]; exact hle)
        exact ⟨p', by rw [hstep]; exact hp', by rw [hk', hlist]⟩
    · have hmem : a ∈ p.map Prod.fst := by simpa using hc
      have hae : a = e := by
        by_contra hne
        have hd := hcnt a hne
        rw [List.count_append] at hd
        have h1 : 0 < (p.map Prod.fst).count a := List.count_pos_iff.mpr hmem
        have h2 : 0 < (a :: ents).count a :=
          List.count_pos_iff.mpr (List.mem_cons_self _ _)
        omega
      have herr : processEntities g rows p (a :: ents)
          = .error (.valueError ["Found duplicate id", a, "in sheet", g]) := by
        rw [hunfold, hc, if_pos rfl]
      constructor
      · intro _
        rw [herr, hae]
      · intro hle
        rw [List.count_append] at hle
        have h1 : 0 < (p.map Prod.fst).count e :=
          List.count_pos_iff.mpr (hae ▸ hmem)
        have h2 : 0 < (a :: ents).count e :=
          List.count_pos_iff.mpr (List.mem_cons.mpr (Or.inl hae.symm))
        omega

/-- The sheet loop of `__init__`: with recognised data types everywhere, a
key stream (accumulated ids plus remaining entity columns) that repeats `e`
and nothing else makes the loop abort with the duplicate-id error naming
`e`. -/
theorem processSheets_dup (e : String) :
    ∀ (sheets : List Sheet) (st : List (String × IoDF) × Params),
      validSheets sheets →
      (st.2.map Prod.fst).Nodup →
      (∀ d, d ≠ e → (st.2.map Prod.fst ++ entStream sheets).count d ≤ 1) →
      2 ≤ (st.2.map Prod.fst ++ entStream sheets).count e →
      ∃ g, processSheets st sheets
        = .error (.valueError ["Found duplicate id", e, "in sheet", g])
  | [], st, _, hnd, _, h2 => by
    exfalso
    have h1 := List.nodup_iff_count_le_one.mp hnd e
    have hnil : entStream [] = [] := rfl
    rw [hnil, List.append_nil] at h2
    omega
  | s :: rest, st, hv, hnd, hcnt, h2 => by
    have hunfold : processSheets st (s :: rest)
        = if s.name = "FiE" ∨ s.name = "FoE" then
            processSheets (dictInsert st.1 s.name s.adj, st.2) rest
          else
            match processEntities s.name s.rows st.2 s.entities with
            | .error err => .error err
            | .ok p => processSheets (st.1, p) rest := rfl
    have hstream : entStream (s :: rest)
        = (if s.name = "FiE" ∨ s.name = "FoE" then [] else s.entities)
            ++ entStream rest := rfl
    by_cases hfxe : s.name = "FiE" ∨ s.name = "FoE"
    · have hstr : entStream (s :: rest) = entStream rest := by
        rw [hstream, if_pos hfxe]
        rfl
      obtain ⟨g, hg⟩ := processSheets_dup e rest
        (dictInsert st.1 s.name s.adj, st.2)
        (fun s' hs' => hv s' (List.mem_cons_of_mem _ hs'))
        hnd
        (fun d hd => by
          show (st.2.map Prod.fst ++ entStream rest).count d ≤ 1
          rw [← hstr]
          exact hcnt d hd)
        (by
          show 2 ≤ (st.2.map Prod.fst ++ entStream rest).count e
          rw [← hstr]
          exact h2)
      exact ⟨g, by rw [hunfold, if_pos hfxe]; exact hg⟩
    · have hrows : ∀ r ∈ s.rows, validDtype r.dtype :=
        hv s (List.mem_cons_self _ _) hfxe
      have hstr : entStream (s :: rest) = s.entities ++ entStream rest := by
        rw [hstream, if_neg hfxe]
      obtain ⟨pe1, pe2⟩ := processEntities_spec s.name s.rows hrows e
        s.entities st.2 hnd
        (fun d hd => by
          have hcd := hcnt d hd
          rw [hstr, ← List.append_assoc, List.count_append] at hcd
          omega)
      by_cases hdup2 : 2 ≤ (st.2.map Prod.fst ++ s.entities).count e
      · refine ⟨s.name, ?_⟩
        rw [hunfold, if_neg hfxe, pe1 hdup2]
      · have hle : (st.2.map Prod.fst ++ s.entities).count e ≤ 1 := by omega
        obtain ⟨p', hp', hk'⟩ := pe2 hle
        have hnd' : (p'.map Prod.fst).Nodup := by
          rw [hk']
          refine List.nodup_iff_count_le_one.mpr fun d => ?_
          by_cases hd : d = e
          · rw [hd]
            exact hle
          · have hcd := hcnt d hd
            rw [hstr, ← List.append_assoc, List.count_append] at hcd
            omega
        obtain ⟨g, hg⟩ := processSheets_dup e rest (st.1, p')
          (fun s' hs' => hv s' (List.mem_cons_of_mem _ hs'))
          hnd'
          (fun d hd => by
            show (p'.map Prod.fst ++ entStream rest).count d ≤ 1
            rw [hk', List.append_assoc, ← hstr]
            exact hcnt d hd)
          (by
            show 2 ≤ (p'.map Prod.fst ++ entStream rest).count e
            rw [hk', List.append_assoc, ← hstr]
            exact h2)
        refine ⟨g, ?_⟩
        rw [hunfold, if_neg hfxe, hp']
        exact hg

/-- **C8.**  For a workbook whose record rows all carry recognised data
types and in which `e` is the one repeated entity data column (appearing
at least twice across the parameter sheets, every other id at most once),
`DataHandler` construction aborts with `ValueError("Found duplicate id",
e, "in sheet", ...)` naming that id, and no store is produced. -/
theorem claim_C8 (sheets : List Sheet) (e : String)
    (hv : validSheets sheets)
    (hdup : 2 ≤ (entStream sheets).count e)
    (huniq : ∀ d ∈ entStream sheets, d ≠ e → (entStream sheets).count d ≤ 1) :
    ∃ g, initDataHandler sheets
      = .error (.valueError ["Found duplicate id", e, "in sheet", g]) := by
  have hcnt : ∀ d, d ≠ e → (entStream sheets).count d ≤ 1 := by
    intro d hd
    by_cases hmem : d ∈ entStream sheets
    · exact huniq d hmem hd
    · rw [List.count_eq_zero.mpr hmem]
      omega
  obtain ⟨g, hg⟩ := processSheets_dup e sheets ([], ([] : Params))
    hv (by simp) (fun d hd => hcnt d hd) hdup
  refine ⟨g, ?_⟩
  have hinit : initDataHandler sheets
      = match processSheets ([], []) sheets with
        | .error err => .error err
        | .ok st => .ok { fxe := st.1, params := st.2 } := rfl
  rw [hinit, hg]

/-- A parameter sheet declaring entities `e1` and `e2`. -/
def sheetA : Sheet :=
  ⟨"conv", ⟨[], [], []⟩, ["e1", "e2"],
    [⟨"constant", "", 0, "cap", [("e1", .num 1), ("e2", .nan)]⟩,
     ⟨"annual", "", 2020, "out", [("e1", .num 7)]⟩]⟩

/-- A second parameter sheet redeclaring `e2`. -/
def sheetB : Sheet :=
  ⟨"dem", ⟨[], [], []⟩, ["e2"],
    [⟨"configuration", "", 0, "enable_capacity", [("e2", .num 1)]⟩]⟩

/-- **C8, witness.**  The workbook `[sheetA, sheetB]` declares `e2` twice;
construction aborts with the duplicate-id error naming `e2`. -/
theorem claim_C8_witness :
    ∃ g, initDataHandler [sheetA, sheetB]
      = .error (.valueError ["Found duplicate id", "e2", "in sheet", g]) :=
  claim_C8 [sheetA, sheetB] "e2" (by decide) (by decide) (by decide)
